import Mathlib

/-!
Verification of the record-chain core of the DAV_BC NFT blockchain simulator.

The repository holds two revisions of the same Streamlit application:
`app2.py` (records carry `owner` and no signature fields) and `app3.py`
(records carry `owner_name`, `owner_pubkey`, `signature`, plus ECDSA wallet
helpers).  The shallow embedding below models, from the source:

* `hashlib.sha256(...).hexdigest()` — a full executable SHA-256 over byte
  lists (bytes are `Nat` values `< 256`, words are `Nat` values `< 2^32`
  with explicit `% 2^32` where overflow matters);
* Python `json.dumps(obj, sort_keys=True)` with its default separators and
  `ensure_ascii=True` escaping — a `Json` value type and a canonical
  encoder that sorts object keys recursively by code point;
* the `Block` / `Blockchain` classes of `app3.py` (namespace `App3`) and
  the `Block` class of `app2.py` (namespace `App2`);
* persistence at the JSON-value level: `to_dict` produces the list of
  per-record JSON objects that `save` writes, and `load` consumes the list
  of JSON values that `json.load` would produce (`none` models an absent
  storage file, in which case the Python code returns `cls()`);
* `base64.b64encode` / `base64.b64decode` (CPython's non-strict decoder:
  characters outside the alphabet are discarded, bad padding raises) and
  the secp256k1 ECDSA verification pipeline of the `ecdsa` package that
  `verify_signature` wraps (`VerifyingKey.verify` raises on a malformed or
  invalid signature; exceptions are modelled as `Except.error`).

Python's nondeterministic `str(datetime.now())` timestamps are passed in
as explicit `String` arguments.  Mutation of the in-memory chain is
modelled by explicit state passing, and Python exceptions by
`Except String`.
-/

/-! ## Bytes, 32-bit words and SHA-256 -/

/-- Right rotation of a 32-bit word held in a `Nat` (input assumed `< 2^32`). -/
def rotr32 (x n : Nat) : Nat :=
  ((x >>> n) ||| (x <<< (32 - n))) % 4294967296

/-- Bitwise complement within 32 bits. -/
def not32 (x : Nat) : Nat := 4294967295 ^^^ x

/-- Big-endian byte expansion of `n` into exactly `k` bytes. -/
def natToBytesBE : Nat → Nat → List Nat
  | 0, _ => []
  | k + 1, n => natToBytesBE k (n / 256) ++ [n % 256]

/-- Big-endian interpretation of a byte list as a number. -/
def bytesBEToNat (bs : List Nat) : Nat :=
  bs.foldl (fun acc b => acc * 256 + b) 0

/-- Group a byte list into big-endian 32-bit words (four bytes per word). -/
def wordsOfBytes : List Nat → List Nat
  | b0 :: b1 :: b2 :: b3 :: rest =>
      (((b0 * 256 + b1) * 256 + b2) * 256 + b3) :: wordsOfBytes rest
  | _ => []

/-- The SHA-256 round constants. -/
def sha256K : List Nat :=
  [1116352408, 1899447441, 3049323471, 3921009573, 961987163, 1508970993,
   2453635748, 2870763221, 3624381080, 310598401, 607225278, 1426881987,
   1925078388, 2162078206, 2614888103, 3248222580, 3835390401, 4022224774,
   264347078, 604807628, 770255983, 1249150122, 1555081692, 1996064986,
   2554220882, 2821834349, 2952996808, 3210313671, 3336571891, 3584528711,
   113926993, 338241895, 666307205, 773529912, 1294757372, 1396182291,
   1695183700, 1986661051, 2177026350, 2456956037, 2730485921, 2820302411,
   3259730800, 3345764771, 3516065817, 3600352804, 4094571909, 275423344,
   430227734, 506948616, 659060556, 883997877, 958139571, 1322822218,
   1537002063, 1747873779, 1955562222, 2024104815, 2227730452, 2361852424,
   2428436474, 2756734187, 3204031479, 3329325298]

/-- The SHA-256 initial hash state. -/
def sha256Init : List Nat :=
  [1779033703, 3144134277, 1013904242, 2773480762,
   1359893119, 2600822924, 528734635, 1541459225]

/-- Fuelled worker for the SHA-256 message-schedule extension (structural
recursion on the fuel so that the kernel can evaluate it). -/
def sha256ExtendAux : Nat → List Nat → List Nat
  | 0, w => w
  | fuel + 1, w =>
      if w.length < 64 then
        let i := w.length
        let a := w.getD (i - 15) 0
        let b := w.getD (i - 2) 0
        let s0 := (rotr32 a 7) ^^^ (rotr32 a 18) ^^^ (a >>> 3)
        let s1 := (rotr32 b 17) ^^^ (rotr32 b 19) ^^^ (b >>> 10)
        sha256ExtendAux fuel (w ++ [(w.getD (i - 16) 0 + s0 + w.getD (i - 7) 0 + s1) % 4294967296])
      else w

/-- Extend the sixteen chunk words to the 64-word SHA-256 message schedule. -/
def sha256Extend (w : List Nat) : List Nat :=
  sha256ExtendAux 64 w

/-- One SHA-256 compression round on the eight-word working state. -/
def sha256Round (st : List Nat) (ki wi : Nat) : List Nat :=
  match st with
  | [a, b, c, d, e, f, g, h] =>
      let s1 := (rotr32 e 6) ^^^ (rotr32 e 11) ^^^ (rotr32 e 25)
      let ch := (e &&& f) ^^^ (not32 e &&& g)
      let t1 := (h + s1 + ch + ki + wi) % 4294967296
      let s0 := (rotr32 a 2) ^^^ (rotr32 a 13) ^^^ (rotr32 a 22)
      let mj := (a &&& b) ^^^ (a &&& c) ^^^ (b &&& c)
      let t2 := (s0 + mj) % 4294967296
      [(t1 + t2) % 4294967296, a, b, c, (d + t1) % 4294967296, e, f, g]
  | other => other

/-- Process one 64-byte chunk, producing the next SHA-256 state. -/
def sha256Chunk (st chunk : List Nat) : List Nat :=
  let w := sha256Extend (wordsOfBytes chunk)
  let st2 := (List.zip sha256K w).foldl (fun s kw => sha256Round s kw.1 kw.2) st
  List.zipWith (fun x y => (x + y) % 4294967296) st st2

/-- SHA-256 padding: a 0x80 byte, zeros to 56 mod 64, then the 64-bit bit length. -/
def sha256Pad (msg : List Nat) : List Nat :=
  msg ++ 128 :: List.replicate ((119 - msg.length % 64) % 64) 0
      ++ natToBytesBE 8 (msg.length * 8)

/-- Fuelled worker splitting a byte list into 64-byte chunks (one unit of
fuel per chunk; a byte count is always enough fuel). -/
def chunks64Aux : Nat → List Nat → List (List Nat)
  | 0, _ => []
  | fuel + 1, l => if l = [] then [] else l.take 64 :: chunks64Aux fuel (l.drop 64)

/-- Split a byte list into consecutive 64-byte chunks. -/
def chunks64 (l : List Nat) : List (List Nat) :=
  chunks64Aux l.length l

/-- SHA-256 of a byte list, as the 32-byte digest. -/
def sha256Bytes (msg : List Nat) : List Nat :=
  let final := (chunks64 (sha256Pad msg)).foldl sha256Chunk sha256Init
  final.foldr (fun w acc => natToBytesBE 4 w ++ acc) []

/-- Lowercase hexadecimal digit for a value `< 16`. -/
def hexDigit (n : Nat) : Char :=
  if n < 10 then Char.ofNat (48 + n) else Char.ofNat (87 + n)

/-- Two lowercase hex characters for one byte. -/
def byteToHex (b : Nat) : String :=
  String.mk [hexDigit (b / 16), hexDigit (b % 16)]

/-- Lowercase hex string of a byte list. -/
def bytesToHex (bs : List Nat) : String :=
  String.join (bs.map byteToHex)

/-- Model of Python `hashlib.sha256(msg).hexdigest()` over a byte list. -/
def sha256hex (msg : List Nat) : String :=
  bytesToHex (sha256Bytes msg)


/-! ## UTF-8 encoding of strings (Python `str.encode()`) -/

/-- UTF-8 byte sequence of a single character. -/
def utf8Char (c : Char) : List Nat :=
  let n := c.toNat
  if n < 128 then [n]
  else if n < 2048 then [192 + n / 64, 128 + n % 64]
  else if n < 65536 then [224 + n / 4096, 128 + n / 64 % 64, 128 + n % 64]
  else [240 + n / 262144, 128 + n / 4096 % 64, 128 + n / 64 % 64, 128 + n % 64]

/-- Model of Python `s.encode()`: the UTF-8 bytes of a string. -/
def utf8Bytes (s : String) : List Nat :=
  (s.data.map utf8Char).foldr (· ++ ·) []

/-! ## JSON values and Python's canonical `json.dumps(-, sort_keys=True)` -/

/-- JSON values as produced by Python's `json` module on the data this
application handles (floats never occur in the chain data and are out of
scope).  Objects are association lists in insertion order, mirroring
Python dicts. -/
inductive Json where
  | null : Json
  | bool : Bool → Json
  | num : Int → Json
  | str : String → Json
  | arr : List Json → Json
  | obj : List (String × Json) → Json

/-- Four lowercase hex characters for a value `< 2^16`. -/
def hex4 (n : Nat) : String :=
  String.mk [hexDigit (n / 4096 % 16), hexDigit (n / 256 % 16), hexDigit (n / 16 % 16), hexDigit (n % 16)]

/-- Escaping of one character exactly as CPython's `json.dumps` with
`ensure_ascii=True`: quote, backslash and everything outside `0x20..0x7e`
are escaped, with the two-character escapes for the usual control
characters and surrogate pairs for astral code points. -/
def escapeChar (c : Char) : String :=
  let n := c.toNat
  if n = 34 then String.mk [Char.ofNat 92, Char.ofNat 34]
  else if n = 92 then String.mk [Char.ofNat 92, Char.ofNat 92]
  else if n = 8 then "\\b"
  else if n = 9 then "\\t"
  else if n = 10 then "\\n"
  else if n = 12 then "\\f"
  else if n = 13 then "\\r"
  else if 32 ≤ n ∧ n ≤ 126 then String.singleton c
  else if n < 65536 then "\\u" ++ hex4 n
  else "\\u" ++ hex4 (55296 + (n - 65536) / 1024) ++ "\\u" ++ hex4 (56320 + (n - 65536) % 1024)

/-- JSON string-body escaping, character by character. -/
def escapeString (s : String) : String :=
  String.join (s.data.map escapeChar)

/-- A JSON string literal: quotes around the escaped body. -/
def quoteJson (s : String) : String :=
  String.mk [Char.ofNat 34] ++ escapeString s ++ String.mk [Char.ofNat 34]

/-- Code-point lexicographic order on character lists, as Python compares `str`. -/
def charListLt : List Char → List Char → Bool
  | [], [] => false
  | [], _ :: _ => true
  | _ :: _, [] => false
  | a :: as, b :: bs =>
      if a.toNat < b.toNat then true
      else if b.toNat < a.toNat then false
      else charListLt as bs

/-- Python string comparison `a < b`. -/
def strLtB (a b : String) : Bool := charListLt a.data b.data

/-- Insert one key-value pair into a key-sorted association list. -/
def insertSorted (kv : String × Json) : List (String × Json) → List (String × Json)
  | [] => [kv]
  | x :: xs => if strLtB x.1 kv.1 then x :: insertSorted kv xs else kv :: x :: xs

/-- Sort an association list by key (Python `sort_keys=True`). -/
def sortKeyvals (l : List (String × Json)) : List (String × Json) :=
  l.foldr insertSorted []

mutual
/-- Recursively sort every object's keys, as `sort_keys=True` does. -/
def sortJson : Json → Json
  | .obj kvs => .obj (sortKeyvals (sortJsonPairs kvs))
  | .arr xs => .arr (sortJsonList xs)
  | j => j

/-- Recursively key-sort each element of a JSON array. -/
def sortJsonList : List Json → List Json
  | [] => []
  | x :: xs => sortJson x :: sortJsonList xs

/-- Recursively key-sort each value of an object's pair list. -/
def sortJsonPairs : List (String × Json) → List (String × Json)
  | [] => []
  | (k, v) :: xs => (k, sortJson v) :: sortJsonPairs xs
end

mutual
/-- Compact JSON text of a value with Python's default separators
(item separator is a comma and a space, key separator is a colon and a
space — the defaults when `indent` is `None`). -/
def encodeJson : Json → String
  | .null => "null"
  | .bool true => "true"
  | .bool false => "false"
  | .num n => toString n
  | .str s => quoteJson s
  | .arr xs => "[" ++ String.intercalate ", " (encodeJsonList xs) ++ "]"
  | .obj kvs => "\x7b" ++ String.intercalate ", " (encodeJsonPairs kvs) ++ "\x7d"

/-- Encoded elements of a JSON array. -/
def encodeJsonList : List Json → List String
  | [] => []
  | x :: xs => encodeJson x :: encodeJsonList xs

/-- Encoded `"key": value` items of a JSON object. -/
def encodeJsonPairs : List (String × Json) → List String
  | [] => []
  | (k, v) :: xs => (quoteJson k ++ ": " ++ encodeJson v) :: encodeJsonPairs xs
end

/-- Model of Python `json.dumps(j, sort_keys=True)`. -/
def dumpsSorted (j : Json) : String :=
  encodeJson (sortJson j)


/-! ## The `app3.py` record chain -/

namespace App3

/-- The `Block` of `app3.py`: one record of the chain.  Fields appear in the
attribute-assignment order of `Block.__init__`; `owner_pubkey`, `signature`
and `metadata` are kept as raw JSON values, matching the dynamic Python
attributes (`None` is `Json.null`). -/
structure Block where
  index : Int
  timestamp : String
  art_hash : String
  owner_name : String
  owner_pubkey : Json
  signature : Json
  metadata : Json
  previous_hash : String
  nonce : Int
  hash : String

/-- The `self.__dict__` of a block with the `hash` key removed, in Python
insertion order (the canonical encoder sorts the keys).  This is both the
dict that `compute_hash` digests and, at `__init__` time, the dict before
`self.hash` is assigned. -/
def Block.dictNoHash (b : Block) : List (String × Json) :=
  [("index", .num b.index), ("timestamp", .str b.timestamp),
   ("art_hash", .str b.art_hash), ("owner_name", .str b.owner_name),
   ("owner_pubkey", b.owner_pubkey), ("signature", b.signature),
   ("metadata", b.metadata), ("previous_hash", .str b.previous_hash),
   ("nonce", .num b.nonce)]

/-- Model of `Block.compute_hash` in `app3.py`: SHA-256 hex digest of the
key-sorted JSON encoding of `self.__dict__` with the `hash` key popped. -/
def Block.compute_hash (b : Block) : String :=
  sha256hex (utf8Bytes (dumpsSorted (Json.obj b.dictNoHash)))

/-- Model of the `Block.__init__` constructor: `nonce` starts at `0` and
`hash` is assigned `compute_hash()` of the other fields. -/
def Block.mkNew (index : Int) (timestamp art_hash owner_name : String)
    (owner_pubkey signature metadata : Json) (previous_hash : String) : Block :=
  let b0 : Block :=
    { index := index, timestamp := timestamp, art_hash := art_hash,
      owner_name := owner_name, owner_pubkey := owner_pubkey,
      signature := signature, metadata := metadata,
      previous_hash := previous_hash, nonce := 0, hash := "" }
  { b0 with hash := b0.compute_hash }

/-- The in-memory chain owned by a `Blockchain` instance. -/
structure Blockchain where
  chain : List Block

/-- The genesis block appended by `create_genesis_block` (the timestamp that
Python takes from `datetime.now()` is an explicit argument). -/
def genesisBlock (ts : String) : Block :=
  Block.mkNew 0 ts "0" "Genesis" .null .null (.obj [("title", .str "Genesis Block")]) "0"

/-- Model of the `Blockchain()` constructor: an empty chain followed by
`create_genesis_block`. -/
def Blockchain.create (ts : String) : Blockchain :=
  { chain := [genesisBlock ts] }

/-- Model of `Blockchain.add_block`.  Python reads `self.chain[-1]`, which
raises `IndexError` on an empty chain; on success the mutated chain and the
returned block are paired up. -/
def Blockchain.add_block (bc : Blockchain) (art_hash owner_name : String)
    (owner_pubkey signature metadata : Json) (ts : String) :
    Except String (Blockchain × Block) :=
  match bc.chain.getLast? with
  | none => .error "IndexError: list index out of range"
  | some previous_block =>
      let new_block := Block.mkNew (bc.chain.length) ts art_hash owner_name
        owner_pubkey signature metadata previous_block.hash
      .ok ({ chain := bc.chain ++ [new_block] }, new_block)

/-- The loop body of `is_chain_valid` from index 1 on: `prev` is the block
before the list `rest` of remaining blocks.  The two early `return False`
branches appear in source order. -/
def chainValidFrom : Block → List Block → Bool
  | _, [] => true
  | prev, curr :: rest =>
      if curr.hash ≠ curr.compute_hash then false
      else if curr.previous_hash ≠ prev.hash then false
      else chainValidFrom curr rest

/-- Model of `Blockchain.is_chain_valid`: `range(1, len(chain))` is empty for
chains of length 0 or 1, so those are valid. -/
def Blockchain.is_chain_valid (bc : Blockchain) : Bool :=
  match bc.chain with
  | [] => true
  | b :: rest => chainValidFrom b rest

/-- The persisted form of one block: `block.__dict__` as a JSON object in
attribute insertion order (this is what `save` passes to `json.dump`). -/
def Block.toDict (b : Block) : Json :=
  .obj (b.dictNoHash ++ [("hash", .str b.hash)])

/-- Model of `Blockchain.to_dict`: the list of per-block dicts. -/
def Blockchain.to_dict (bc : Blockchain) : List Json :=
  bc.chain.map Block.toDict

/-- Dict lookup `kvs[key]` on an association list (Python dict keys are
unique, so first match is the dict semantics). -/
def dictGet : List (String × Json) → String → Option Json
  | [], _ => none
  | (k, v) :: rest, key => if k = key then some v else dictGet rest key

/-- Required subscript access `block_data[key]`: a missing key raises
`KeyError` and a non-dict value raises `TypeError`. -/
def jGet (j : Json) (key : String) : Except String Json :=
  match j with
  | .obj kvs =>
      match dictGet kvs key with
      | some v => .ok v
      | none => .error ("KeyError: " ++ key)
  | _ => .error "TypeError: not a dict"

/-- Optional access `block_data.get(key)`: `None` when the key is absent. -/
def jGetOpt (j : Json) (key : String) : Json :=
  match j with
  | .obj kvs => (dictGet kvs key).getD .null
  | _ => .null

/-- Access `block_data.get(key, default)` with an integer default. -/
def jGetOptNum (j : Json) (key : String) (default : Int) : Json :=
  match j with
  | .obj kvs => (dictGet kvs key).getD (.num default)
  | _ => .num default

/-- Coerce a JSON value to the integer a typed model field stores.  The
Python attributes are dynamically typed; the model insists on the type the
application actually stores, so only `Json.num` is accepted. -/
def asInt : Json → Except String Int
  | .num n => .ok n
  | _ => .error "TypeError: expected an int"

/-- Coerce a JSON value to the string a typed model field stores. -/
def asStr : Json → Except String String
  | .str s => .ok s
  | _ => .error "TypeError: expected a str"

/-- Reconstruction of one persisted block inside `Blockchain.load`: the
required subscripts, the two `.get` calls, the `Block(...)` constructor and
the two attribute overwrites for `nonce` and `hash`. -/
def loadBlock (j : Json) : Except String Block := do
  let index ← jGet j "index" >>= asInt
  let timestamp ← jGet j "timestamp" >>= asStr
  let art_hash ← jGet j "art_hash" >>= asStr
  let owner_name ← jGet j "owner_name" >>= asStr
  let owner_pubkey := jGetOpt j "owner_pubkey"
  let signature := jGetOpt j "signature"
  let metadata ← jGet j "metadata"
  let previous_hash ← jGet j "previous_hash" >>= asStr
  let b := Block.mkNew index timestamp art_hash owner_name owner_pubkey
    signature metadata previous_hash
  let nonce ← asInt (jGetOptNum j "nonce" 0)
  let h ← jGet j "hash" >>= asStr
  .ok { b with nonce := nonce, hash := h }

/-- Model of the classmethod `Blockchain.load`.  `none` models an absent
storage file (`os.path.exists` false), where Python returns `cls()`; with a
file present, `data` is the decoded JSON array and each record is rebuilt in
order, any raised `KeyError`/`TypeError` aborting the whole load. -/
def Blockchain.load (ts : String) : Option (List Json) → Except String Blockchain
  | none => .ok (Blockchain.create ts)
  | some data => do
      let blocks ← data.mapM loadBlock
      .ok { chain := blocks }

end App3

/-! ## The `app2.py` record -/

namespace App2

/-- The `Block` of `app2.py`: no signature-related fields, and the owner
attribute is called `owner`. -/
structure Block where
  index : Int
  timestamp : String
  art_hash : String
  owner : String
  metadata : Json
  previous_hash : String
  nonce : Int
  hash : String

/-- The `self.__dict__` of an `app2.py` block as it stands during
`__init__`, before `self.hash` is assigned. -/
def Block.dictAtInit (b : Block) : List (String × Json) :=
  [("index", .num b.index), ("timestamp", .str b.timestamp),
   ("art_hash", .str b.art_hash), ("owner", .str b.owner),
   ("metadata", b.metadata), ("previous_hash", .str b.previous_hash),
   ("nonce", .num b.nonce)]

/-- Model of `Block.compute_hash` in `app2.py` as called on a constructed
block: it digests `json.dumps(self.__dict__, sort_keys=True)` and, unlike
`app3.py`, does not remove the `hash` key, so the stored hash itself is part
of the digested dict whenever the attribute exists. -/
def Block.compute_hash (b : Block) : String :=
  sha256hex (utf8Bytes (dumpsSorted (Json.obj (b.dictAtInit ++ [("hash", .str b.hash)]))))

/-- Model of the `app2.py` `Block.__init__`: when `compute_hash` runs inside
the constructor, `self.hash` has not been assigned yet, so the digested dict
has no `hash` key. -/
def Block.mkNew (index : Int) (timestamp art_hash owner : String)
    (metadata : Json) (previous_hash : String) : Block :=
  let b0 : Block :=
    { index := index, timestamp := timestamp, art_hash := art_hash,
      owner := owner, metadata := metadata, previous_hash := previous_hash,
      nonce := 0, hash := "" }
  { b0 with hash := sha256hex (utf8Bytes (dumpsSorted (Json.obj b0.dictAtInit))) }

end App2

/-! ## SHA-1 (the default message digest of the `ecdsa` package's
`SigningKey.sign` / `VerifyingKey.verify`) -/

/-- Left rotation of a 32-bit word held in a `Nat` (input assumed `< 2^32`). -/
def rotl32 (x n : Nat) : Nat :=
  ((x <<< n) ||| (x >>> (32 - n))) % 4294967296

/-- The SHA-1 initial state. -/
def sha1Init : List Nat :=
  [1732584193, 4023233417, 2562383102, 271733878, 3285377520]

/-- The SHA-1 round constant for round `i`. -/
def sha1K (i : Nat) : Nat :=
  if i < 20 then 1518500249
  else if i < 40 then 1859775393
  else if i < 60 then 2400959708
  else 3395469782

/-- The SHA-1 round mixing function for round `i`. -/
def sha1F (i b c d : Nat) : Nat :=
  if i < 20 then (b &&& c) ||| (not32 b &&& d)
  else if i < 40 then b ^^^ c ^^^ d
  else if i < 60 then (b &&& c) ||| (b &&& d) ||| (c &&& d)
  else b ^^^ c ^^^ d

/-- Fuelled worker extending the sixteen chunk words to the 80-word SHA-1
schedule. -/
def sha1ExtendAux : Nat → List Nat → List Nat
  | 0, w => w
  | fuel + 1, w =>
      if w.length < 80 then
        let i := w.length
        sha1ExtendAux fuel (w ++ [rotl32 ((w.getD (i - 3) 0) ^^^ (w.getD (i - 8) 0) ^^^
          (w.getD (i - 14) 0) ^^^ (w.getD (i - 16) 0)) 1])
      else w

/-- One SHA-1 compression round on the five-word working state. -/
def sha1Round (st : List Nat) (i wi : Nat) : List Nat :=
  match st with
  | [a, b, c, d, e] =>
      [(rotl32 a 5 + sha1F i b c d + e + sha1K i + wi) % 4294967296,
       a, rotl32 b 30, c, d]
  | other => other

/-- Process one 64-byte chunk, producing the next SHA-1 state. -/
def sha1Chunk (st chunk : List Nat) : List Nat :=
  let w := sha1ExtendAux 80 (wordsOfBytes chunk)
  let st2 := (List.range 80).foldl (fun s i => sha1Round s i (w.getD i 0)) st
  List.zipWith (fun x y => (x + y) % 4294967296) st st2

/-- SHA-1 of a byte list, as the 20-byte digest (the padding rule is the
same as SHA-256's). -/
def sha1Bytes (msg : List Nat) : List Nat :=
  let final := (chunks64 (sha256Pad msg)).foldl sha1Chunk sha1Init
  final.foldr (fun w acc => natToBytesBE 4 w ++ acc) []

/-! ## Base64 (Python `base64.b64encode` / `b64decode`) -/

/-- The standard base64 alphabet. -/
def b64Alphabet : List Char :=
  "ABCDEFGHIJKLMNOPQRSTUVWXYZabcdefghijklmnopqrstuvwxyz0123456789+/".data

/-- Index of a character in the base64 alphabet, if any. -/
def b64Index (c : Char) : Option Nat :=
  b64Alphabet.indexOf? c

/-- Whether a character belongs to the base64 alphabet. -/
def isB64Char (c : Char) : Bool :=
  (b64Index c).isSome

/-- Character of the base64 alphabet at a 6-bit index. -/
def b64Char (n : Nat) : Char :=
  b64Alphabet.getD n (Char.ofNat 65)

/-- Base64 encoding of a byte list in three-byte groups with `=` padding,
as `base64.b64encode(..).decode()` produces. -/
def b64EncodeChunks : List Nat → String
  | b0 :: b1 :: b2 :: rest =>
      String.mk [b64Char (b0 / 4), b64Char (b0 % 4 * 16 + b1 / 16),
        b64Char (b1 % 16 * 4 + b2 / 64), b64Char (b2 % 64)] ++ b64EncodeChunks rest
  | [b0, b1] =>
      String.mk [b64Char (b0 / 4), b64Char (b0 % 4 * 16 + b1 / 16),
        b64Char (b1 % 16 * 4)] ++ "="
  | [b0] =>
      String.mk [b64Char (b0 / 4), b64Char (b0 % 4 * 16)] ++ "=="
  | [] => ""

/-- Model of Python `base64.b64encode(bs).decode()`. -/
def b64encode (bs : List Nat) : String :=
  b64EncodeChunks bs

/-- Reassemble bytes from a list of 6-bit values whose length is a multiple
of four, possibly followed by a final group of two or three values (the
caller has already checked the padding). -/
def b64DecodeVals : List Nat → List Nat
  | v0 :: v1 :: v2 :: v3 :: rest =>
      (v0 * 4 + v1 / 16) :: (v1 % 16 * 16 + v2 / 4) :: (v2 % 4 * 64 + v3) ::
        b64DecodeVals rest
  | [v0, v1] => [v0 * 4 + v1 / 16]
  | [v0, v1, v2] => [v0 * 4 + v1 / 16, v1 % 16 * 16 + v2 / 4]
  | _ => []

/-- Modelled from CPython's non-strict `base64.b64decode` (via
`binascii.a2b_base64`) on the inputs this application produces: characters
outside the alphabet are discarded; a data-character count that is 1 more
than a multiple of 4 raises, as does a final group of 2 or 3 data
characters without enough `=` padding; exceptions are `Except.error`. -/
def b64decode (s : String) : Except String (List Nat) :=
  let kept := s.data.filter (fun c => isB64Char c || c = Char.ofNat 61)
  let dataChars := kept.takeWhile (fun c => c ≠ Char.ofNat 61)
  let pads := kept.length - dataChars.length
  let vals := dataChars.filterMap b64Index
  if vals.length % 4 = 1 then
    .error "binascii.Error: Invalid base64-encoded string"
  else if vals.length % 4 = 2 ∧ pads < 2 then
    .error "binascii.Error: Incorrect padding"
  else if vals.length % 4 = 3 ∧ pads < 1 then
    .error "binascii.Error: Incorrect padding"
  else
    .ok (b64DecodeVals vals)

/-! ## secp256k1 and the ECDSA operations of the `ecdsa` package -/

namespace Secp256k1

/-- The field prime of secp256k1. -/
def P : Nat := 0xFFFFFFFFFFFFFFFFFFFFFFFFFFFFFFFFFFFFFFFFFFFFFFFFFFFFFFFEFFFFFC2F

/-- The group order of the secp256k1 base point. -/
def N : Nat := 0xFFFFFFFFFFFFFFFFFFFFFFFFFFFFFFFEBAAEDCE6AF48A03BBFD25E8CD0364141

/-- Base point x coordinate. -/
def Gx : Nat := 0x79BE667EF9DCBBAC55A06295CE870B07029BFCDB2DCE28D959F2815B16F81798

/-- Base point y coordinate. -/
def Gy : Nat := 0x483ADA7726A3C4655DA4FBFC0E1108A8FD17B448A68554199C47D08FFB10D4B8

/-- Fuelled fast modular exponentiation (structural recursion so the kernel
can evaluate it; the exponent itself is always enough fuel). -/
def powModAux : Nat → Nat → Nat → Nat → Nat
  | 0, _, _, m => 1 % m
  | fuel + 1, b, e, m =>
      if e = 0 then 1 % m
      else
        let r := powModAux fuel ((b * b) % m) (e / 2) m
        if e % 2 = 1 then (r * b) % m else r

/-- Modular exponentiation `b ^ e mod m`. -/
def powMod (b e m : Nat) : Nat :=
  powModAux e b e m

/-- Modular inverse by Fermat's little theorem (the moduli used are the
prime `P` and the prime order `N`). -/
def modInv (a m : Nat) : Nat :=
  powMod a (m - 2) m

/-- An affine point of the curve, `none` being the point at infinity. -/
def Point : Type := Option (Nat × Nat)

/-- Affine point addition on `y^2 = x^3 + 7` over `F_P`, with the doubling
tangent and the chord rules (subtractions are guarded by adding multiples
of `P`, since coordinates live in `Nat`). -/
def pointAdd : Point → Point → Point
  | none, q => q
  | p, none => p
  | some (x1, y1), some (x2, y2) =>
      if x1 = x2 then
        if (y1 + y2) % P = 0 then none
        else
          let l := (3 * x1 * x1 % P) * modInv (2 * y1 % P) P % P
          let x3 := (l * l + 2 * P - x1 - x2) % P
          let y3 := (l * ((x1 + P - x3) % P) + P - y1 % P) % P
          some (x3, y3)
      else
        let l := ((y2 + P - y1) % P) * modInv ((x2 + P - x1) % P) P % P
        let x3 := (l * l + 2 * P - x1 - x2) % P
        let y3 := (l * ((x1 + P - x3) % P) + P - y1 % P) % P
        some (x3, y3)

/-- Fuelled double-and-add scalar multiplication (the scalar itself is
always enough fuel). -/
def scalarMulAux : Nat → Nat → Point → Point
  | 0, _, _ => none
  | fuel + 1, k, p =>
      if k = 0 then none
      else
        let r := scalarMulAux fuel (k / 2) (pointAdd p p)
        if k % 2 = 1 then pointAdd r p else r

/-- Scalar multiplication `k · p`. -/
def scalarMul (k : Nat) (p : Point) : Point :=
  scalarMulAux k k p

/-- The base point `G` as a `Point`. -/
def basePoint : Point :=
  some (Gx, Gy)

end Secp256k1

/-- A `VerifyingKey` of the `ecdsa` package: a point of secp256k1. -/
structure VerifyingKey where
  point : Nat × Nat

/-- Modelled from the `ecdsa` package's `VerifyingKey.verify` for
`curve=SECP256k1` with its default `hashfunc` (SHA-1), as called by
`verify_signature`: `sigdecode_string` requires exactly 64 signature bytes
(else `MalformedSignature`), `r` and `s` must lie in `[1, N-1]`, and the
point equation `x(u1·G + u2·Q) ≡ r (mod N)` must hold; any failure raises,
modelled as `Except.error`. -/
def ecdsaVerify (vk : VerifyingKey) (msg sig : List Nat) : Except String Unit :=
  if sig.length ≠ 64 then .error "MalformedSignature"
  else
    let r := bytesBEToNat (sig.take 32)
    let s := bytesBEToNat (sig.drop 32)
    if r < 1 ∨ Secp256k1.N - 1 < r then .error "BadSignatureError"
    else if s < 1 ∨ Secp256k1.N - 1 < s then .error "BadSignatureError"
    else
      let e := bytesBEToNat (sha1Bytes msg)
      let w := Secp256k1.modInv s Secp256k1.N
      let u1 := e * w % Secp256k1.N
      let u2 := r * w % Secp256k1.N
      match Secp256k1.pointAdd (Secp256k1.scalarMul u1 Secp256k1.basePoint)
          (Secp256k1.scalarMul u2 (some vk.point)) with
      | none => .error "BadSignatureError"
      | some (x, _) => if x % Secp256k1.N = r then .ok () else .error "BadSignatureError"

/-- Modelled from the `ecdsa` package's `SigningKey.sign` for
`curve=SECP256k1` with its default SHA-1 digest: the randomized nonce `k`
is an explicit argument, and the zero cases for `r` and `s`, which the
library resolves by redrawing `k`, return `none`. -/
def ecdsaSign (d : Nat) (msg : List Nat) (k : Nat) : Option (List Nat) :=
  match Secp256k1.scalarMul k Secp256k1.basePoint with
  | none => none
  | some (x, _) =>
      let r := x % Secp256k1.N
      if r = 0 then none
      else
        let e := bytesBEToNat (sha1Bytes msg)
        let s := Secp256k1.modInv k Secp256k1.N * ((e + r * d) % Secp256k1.N) % Secp256k1.N
        if s = 0 then none
        else some (natToBytesBE 32 r ++ natToBytesBE 32 s)

namespace App3

/-- Model of `generate_wallet`: the random private scalar drawn by
`SigningKey.generate` is an explicit argument; the verifying key is
`sk · G` (the library never draws a scalar that is `0 mod N`, so the
`getD` default is unreachable for the keys it produces). -/
def generate_wallet (sk : Nat) : Nat × VerifyingKey :=
  (sk, ⟨(Secp256k1.scalarMul sk Secp256k1.basePoint).getD (0, 0)⟩)

/-- Model of `sign_art`: sign the UTF-8 bytes of the digest string and
base64 the signature; the library's internal nonce redraws on `r = 0` or
`s = 0` are surfaced as `none`. -/
def sign_art (sk : Nat) (art_hash : String) (k : Nat) : Option String :=
  (ecdsaSign sk (utf8Bytes art_hash) k).map b64encode

/-- Model of `verify_signature`: base64-decode the signature and run the
library verification; the bare `except: return False` maps every raised
exception from either step to `false`. -/
def verify_signature (vk : VerifyingKey) (art_hash signature : String) : Bool :=
  match b64decode signature with
  | .error _ => false
  | .ok sigBytes =>
      match ecdsaVerify vk (utf8Bytes art_hash) sigBytes with
      | .error _ => false
      | .ok _ => true

/-- The persisted-record keys whose absence raises `KeyError` inside
`Blockchain.load` (the subscripted, required ones; `owner_pubkey`,
`signature` and `nonce` are read with `.get` and are optional). -/
def requiredKeys : List String :=
  ["index", "timestamp", "art_hash", "owner_name", "metadata", "previous_hash", "hash"]

end App3

/-- A concrete timestamped genesis record for witness chains. -/
def App3.demoGenesis : App3.Block :=
  App3.genesisBlock "2024-01-01 00:00:00"

/-- A concrete minted record linked to `demoGenesis` exactly as
`add_block` would construct it. -/
def App3.demoBlock1 : App3.Block :=
  App3.Block.mkNew 1 "2024-01-01 00:00:01" "abc123" "alice" .null .null
    (.obj [("title", .str "Sunset")]) App3.demoGenesis.hash

/-- A concrete two-record chain used by witnesses. -/
def App3.demoChain : App3.Blockchain :=
  { chain := [App3.demoGenesis, App3.demoBlock1] }

/-! ## Validation of the modelled primitives -/

set_option maxRecDepth 100000

/-- SHA-256 FIPS test vector: the empty message. -/
theorem sha256hex_empty_vector :
    sha256hex [] = "e3b0c44298fc1c149afbf4c8996fb92427ae41e4649b934ca495991b7852b855" := by
  decide

/-- SHA-256 FIPS test vector: the three-byte message "abc". -/
theorem sha256hex_abc_vector :
    sha256hex [97, 98, 99] = "ba7816bf8f01cfea414140de5dae2223b00361a396177a9cb410ff61f20015ad" := by
  decide

/-- SHA-1 FIPS test vector: the three-byte message "abc". -/
theorem sha1Bytes_abc_vector :
    bytesToHex (sha1Bytes [97, 98, 99]) = "a9993e364706816aba3e25717850c26c9cd0d89d" := by
  decide

/-- Encoder check: key sorting, separators and null parallel Python's output
on a representative nested value. -/
theorem dumpsSorted_sample :
    dumpsSorted (.obj [("b", .num 1), ("a", .obj [("y", .null), ("x", .str "v")])]) =
      "\x7b\"a\": \x7b\"x\": \"v\", \"y\": null\x7d, \"b\": 1\x7d" := by
  decide

/-- Base64 check: `b64encode` matches Python on a 4-byte input and
`b64decode` inverts it. -/
theorem b64_sample :
    b64encode [77, 97, 110, 33] = "TWFuIQ==" ∧
    b64decode "TWFuIQ==" = .ok [77, 97, 110, 33] := by
  exact ⟨by decide, rfl⟩

/-- The stored `hash` field does not take part in `app3.py`'s
`compute_hash`: overwriting it leaves the digest unchanged. -/
theorem app3_compute_hash_update_hash (b : App3.Block) (h : String) :
    App3.Block.compute_hash { b with hash := h } = App3.Block.compute_hash b := by
  simp only [App3.Block.compute_hash, App3.Block.dictNoHash]

/-! ## Claim C1 -/

/-- Claim C1 (code_bug): in `app3.py`, re-running `compute_hash` on an
untouched, freshly constructed record reproduces the stored `hash` for
every field assignment, because the stored `hash` key is popped before
digesting; but in `app2.py` the recomputation digests `self.__dict__`
including the now-present `hash` attribute, so on a concrete record it
fails to reproduce the hash stored at construction time. -/
theorem c1_hash_determinism :
    (∀ (index : Int) (ts art owner : String) (pk sg md : Json) (prev : String),
       (App3.Block.mkNew index ts art owner pk sg md prev).compute_hash =
         (App3.Block.mkNew index ts art owner pk sg md prev).hash) ∧
    (App2.Block.mkNew 0 "2024-01-01 00:00:00" "0" "Genesis"
        (.obj [("title", .str "Genesis Block")]) "0").compute_hash ≠
      (App2.Block.mkNew 0 "2024-01-01 00:00:00" "0" "Genesis"
        (.obj [("title", .str "Genesis Block")]) "0").hash := by
  constructor
  · intro index ts art owner pk sg md prev
    simp only [App3.Block.mkNew, App3.Block.compute_hash, App3.Block.dictNoHash]
  · decide

/-! ## Claim C3 -/

/-- Claim C3: a freshly constructed `Blockchain` holds exactly the genesis
record, whose index is 0, whose `previous_hash` and `art_hash` are "0" and
whose owner label is "Genesis", and `is_chain_valid` is true on it. -/
theorem c3_genesis_invariant (ts : String) :
    (App3.Blockchain.create ts).chain = [App3.genesisBlock ts] ∧
    (App3.Blockchain.create ts).chain.length = 1 ∧
    (App3.genesisBlock ts).index = 0 ∧
    (App3.genesisBlock ts).previous_hash = "0" ∧
    (App3.genesisBlock ts).art_hash = "0" ∧
    (App3.genesisBlock ts).owner_name = "Genesis" ∧
    (App3.Blockchain.create ts).is_chain_valid = true :=
  ⟨rfl, rfl, rfl, rfl, rfl, rfl, rfl⟩

/-! ## Claim C8 -/

/-- Claim C8: `Blockchain.load` on an absent storage file returns, without
an error, the same fresh chain the constructor builds, containing only the
genesis record. -/
theorem c8_load_absent_storage (ts : String) :
    App3.Blockchain.load ts none = .ok (App3.Blockchain.create ts) ∧
    (App3.Blockchain.create ts).chain = [App3.genesisBlock ts] :=
  ⟨rfl, rfl⟩

/-! ## Claim C10 -/

/-- Claim C10: loading a persisted file holding an empty record sequence
produces a chain with zero records (no genesis), and `add_block` on that
chain raises (`self.chain[-1]` on an empty list) instead of returning a new
record. -/
theorem c10_empty_persisted_chain (ts ts2 art owner : String) (pk sg md : Json) :
    App3.Blockchain.load ts (some []) = .ok { chain := [] } ∧
    App3.Blockchain.add_block { chain := [] } art owner pk sg md ts2 =
      .error "IndexError: list index out of range" := by
  constructor
  · rfl
  · rfl

/-! ## Claim C4 -/

/-- Claim C4: on any non-empty chain, `add_block` succeeds — no signature
or content-hash validation happens, any `art_hash`, key, signature and
metadata values are accepted — appending exactly one new record and
returning it, with `previous_hash` the old last record's hash and `index`
the old length. -/
theorem c4_append_linkage (bc : App3.Blockchain) (art owner : String) (pk sg md : Json)
    (ts : String) (h : bc.chain ≠ []) :
    ∃ nb : App3.Block,
      bc.add_block art owner pk sg md ts = .ok ({ chain := bc.chain ++ [nb] }, nb) ∧
      nb.previous_hash = (bc.chain.getLast h).hash ∧
      nb.index = (bc.chain.length : Int) := by
  refine ⟨App3.Block.mkNew (bc.chain.length : Int) ts art owner pk sg md
    (bc.chain.getLast h).hash, ?_, ?_, ?_⟩
  · simp only [App3.Blockchain.add_block, List.getLast?_eq_getLast bc.chain h]
  · simp only [App3.Block.mkNew]
  · simp only [App3.Block.mkNew]

/-- Witness for C4 at a concrete chain: the fresh chain is non-empty and
the appended record links to the genesis hash with index 1. -/
theorem c4_witness :
    (App3.Blockchain.create "t0").chain ≠ [] ∧
    ∃ nb : App3.Block,
      (App3.Blockchain.create "t0").add_block "abc123" "alice" .null .null
          (.obj [("title", .str "Sunset")]) "t1" =
        .ok ({ chain := (App3.Blockchain.create "t0").chain ++ [nb] }, nb) ∧
      nb.previous_hash =
        ((App3.Blockchain.create "t0").chain.getLast
          (by simp [App3.Blockchain.create])).hash ∧
      nb.index = ((App3.Blockchain.create "t0").chain.length : Int) := by
  have h : (App3.Blockchain.create "t0").chain ≠ [] := by simp [App3.Blockchain.create]
  exact ⟨h, c4_append_linkage (App3.Blockchain.create "t0") "abc123" "alice" .null .null
    (.obj [("title", .str "Sunset")]) "t1" h⟩

/-! ## Claim C5 -/

/-- Reloading the persisted dict of a block reproduces the block exactly:
every required field is read back, the optional fields default through
`.get`, and the constructor-computed hash is overwritten by the stored
one. -/
theorem app3_loadBlock_toDict (b : App3.Block) : App3.loadBlock b.toDict = .ok b := by
  cases b with
  | mk i ts a o pk sg md ph n h =>
    simp [App3.loadBlock, App3.Block.toDict, App3.Block.dictNoHash, App3.jGet, App3.jGetOpt,
      App3.jGetOptNum, App3.dictGet, App3.asInt, App3.asStr, App3.Block.mkNew, bind, Except.bind]

/-- Accumulator form: running the load loop over the mapped dicts of a
block list appends the list to the reversed accumulator. -/
theorem app3_mapM_loop_loadBlock_toDict (l : List App3.Block) : ∀ acc : List App3.Block,
    List.mapM.loop App3.loadBlock (l.map App3.Block.toDict) acc = .ok (acc.reverse ++ l) := by
  induction l with
  | nil => intro acc; simp [List.mapM.loop]; rfl
  | cons b rest ih =>
    intro acc
    simp [List.mapM.loop, app3_loadBlock_toDict b, bind, Except.bind, ih]

/-- Loading the mapped dicts of a block list reproduces the list. -/
theorem app3_mapM_loadBlock_toDict (l : List App3.Block) :
    (l.map App3.Block.toDict).mapM App3.loadBlock = .ok l := by
  have h := app3_mapM_loop_loadBlock_toDict l []
  simpa [List.mapM] using h

/-- Claim C5: serializing any chain with `to_dict`/`save` and loading it
back yields the chain unchanged field-for-field — stored hashes, nonces,
nested metadata, and the `null`-versus-empty-string distinction of the
optional `owner_pubkey`/`signature` fields all round-trip. -/
theorem c5_save_load_roundtrip (bc : App3.Blockchain) (ts : String) :
    App3.Blockchain.load ts (some bc.to_dict) = .ok bc := by
  simp [App3.Blockchain.load, App3.Blockchain.to_dict, List.mapM,
    app3_mapM_loop_loadBlock_toDict, bind, Except.bind]

/-! ## Claim C2 -/

/-- The `is_chain_valid` scan returns false whenever any position `i ≥ 1`
fails the stored-hash recomputation check or the `previous_hash` linkage
check (here `l` lists the records from index 1 on and `p` is the record
before `l`). -/
theorem app3_chainValidFrom_eq_false (l : List App3.Block) : ∀ (p : App3.Block) (i : Nat)
    (hi : i < l.length),
    ((l.get ⟨i, hi⟩).hash ≠ (l.get ⟨i, hi⟩).compute_hash ∨
      (l.get ⟨i, hi⟩).previous_hash ≠
        (if h0 : i = 0 then p else l.get ⟨i - 1, by omega⟩).hash) →
    App3.chainValidFrom p l = false := by
  induction l with
  | nil => intro p i hi; simp at hi
  | cons c rest ih =>
    intro p i hi hbad
    cases i with
    | zero =>
      simp only [List.get_eq_getElem, List.getElem_cons_zero, dif_pos] at hbad
      simp only [App3.chainValidFrom]
      rcases hbad with h1 | h2
      · rw [if_pos h1]
      · by_cases h1 : c.hash ≠ c.compute_hash
        · rw [if_pos h1]
        · rw [if_neg h1, if_pos h2]
    | succ j =>
      have hj : j < rest.length := by simpa using hi
      have hbad2 : (rest.get ⟨j, hj⟩).hash ≠ (rest.get ⟨j, hj⟩).compute_hash ∨
          (rest.get ⟨j, hj⟩).previous_hash ≠
            (if _h0 : j = 0 then c else rest.get ⟨j - 1, by omega⟩).hash := by
        rcases hbad with h1 | h2
        · left
          simpa using h1
        · right
          rcases Nat.eq_zero_or_pos j with hj0 | hj0
          · subst hj0
            simpa using h2
          · have hne : j + 1 ≠ 0 := by omega
            rw [dif_neg hne] at h2
            rw [dif_neg (by omega : ¬ j = 0)]
            have : (c :: rest).get ⟨j + 1 - 1, by simp; omega⟩ = rest.get ⟨j - 1, by omega⟩ := by
              rcases Nat.exists_eq_add_of_lt hj0 with ⟨k, hk⟩
              subst hk
              simp
            rw [this] at h2
            simpa using h2
      simp only [App3.chainValidFrom]
      by_cases h1 : c.hash ≠ c.compute_hash
      · rw [if_pos h1]
      · rw [if_neg h1]
        by_cases h2 : c.previous_hash ≠ p.hash
        · rw [if_pos h2]
        · rw [if_neg h2]
          exact ih c j hj hbad2

/-- Claim C2: on a valid chain, overwriting `owner_name` of a non-genesis
record in place — keeping the stored `hash`, which (absent a SHA-256
collision, the explicit inequality hypothesis) no longer matches the
recomputed digest — makes `is_chain_valid` false; and replacing
`previous_hash` of a record `i ≥ 1` by any value different from record
`i-1`'s hash makes `is_chain_valid` false even when the record's own
`hash` is recomputed to be internally consistent. -/
theorem c2_tamper_and_linkage_detection :
    (∀ (bc : App3.Blockchain) (i : Nat) (name2 : String)
      (hi0 : 0 < i) (hi : i < bc.chain.length),
      bc.is_chain_valid = true →
      App3.Block.compute_hash { bc.chain.get ⟨i, hi⟩ with owner_name := name2 } ≠
        (bc.chain.get ⟨i, hi⟩).hash →
      App3.Blockchain.is_chain_valid
        { chain := bc.chain.set i
            { bc.chain.get ⟨i, hi⟩ with owner_name := name2 } } = false) ∧
    (∀ (bc : App3.Blockchain) (i : Nat) (v : String)
      (hi0 : 0 < i) (hi : i < bc.chain.length),
      v ≠ (bc.chain.get ⟨i - 1, by omega⟩).hash →
      App3.Blockchain.is_chain_valid
        { chain := bc.chain.set i
            { { bc.chain.get ⟨i, hi⟩ with previous_hash := v } with
              hash := App3.Block.compute_hash
                { bc.chain.get ⟨i, hi⟩ with previous_hash := v } } } = false) := by
  constructor
  · intro bc i name2 hi0 hi hvalid hne
    obtain ⟨chain⟩ := bc
    cases chain with
    | nil => simp at hi
    | cons c t =>
      cases i with
      | zero => omega
      | succ j =>
        have hj : j < t.length := by simpa using hi
        simp only [List.get_eq_getElem, List.getElem_cons_succ] at hne
        show App3.Blockchain.is_chain_valid
          { chain := c :: t.set j { t.get ⟨j, hj⟩ with owner_name := name2 } } = false
        simp only [App3.Blockchain.is_chain_valid]
        apply app3_chainValidFrom_eq_false _ c j (by simpa using hj)
        left
        simp only [List.get_eq_getElem, List.getElem_set_self]
        intro hcontra
        exact hne (by simpa using hcontra.symm)
  · intro bc i v hi0 hi hv
    obtain ⟨chain⟩ := bc
    cases chain with
    | nil => simp at hi
    | cons c t =>
      cases i with
      | zero => omega
      | succ j =>
        have hj : j < t.length := by simpa using hi
        simp only [List.get_eq_getElem, List.getElem_cons_succ, Nat.succ_sub_one] at hv ⊢
        show App3.Blockchain.is_chain_valid { chain := c :: t.set j _ } = false
        simp only [App3.Blockchain.is_chain_valid]
        apply app3_chainValidFrom_eq_false _ c j (by simpa using hj)
        right
        rcases Nat.eq_zero_or_pos j with hj0 | hj0
        · subst hj0
          rw [dif_pos rfl]
          simp only [List.get_eq_getElem, List.getElem_set_self]
          simpa using hv
        · rw [dif_neg (by omega : ¬ j = 0)]
          simp only [List.get_eq_getElem, List.getElem_set_self,
            List.getElem_set_ne (by omega : j ≠ j - 1)]
          rcases Nat.exists_eq_add_of_lt hj0 with ⟨k, hk⟩
          have hk2 : j = k + 1 := by omega
          subst hk2
          simpa [List.getElem_cons_succ] using hv

set_option maxHeartbeats 4000000

/-- Witness for C2 on a concrete two-record chain: the chain is valid, the
owner-name mutation changes the digest, "deadbeef" differs from the
genesis hash, and both tampered chains fail `is_chain_valid`. -/
theorem c2_witness :
    App3.demoChain.is_chain_valid = true ∧
    App3.Block.compute_hash
        { App3.demoChain.chain.get ⟨1, by decide⟩ with owner_name := "bob" } ≠
      (App3.demoChain.chain.get ⟨1, by decide⟩).hash ∧
    "deadbeef" ≠ (App3.demoChain.chain.get ⟨0, by decide⟩).hash ∧
    App3.Blockchain.is_chain_valid
      { chain := App3.demoChain.chain.set 1
          { App3.demoChain.chain.get ⟨1, by decide⟩ with owner_name := "bob" } } = false ∧
    App3.Blockchain.is_chain_valid
      { chain := App3.demoChain.chain.set 1
          { { App3.demoChain.chain.get ⟨1, by decide⟩ with previous_hash := "deadbeef" } with
            hash := App3.Block.compute_hash
              { App3.demoChain.chain.get ⟨1, by decide⟩ with
                previous_hash := "deadbeef" } } } = false := by
  have h1 : App3.demoChain.is_chain_valid = true := by decide
  have h2 : App3.Block.compute_hash
      { App3.demoChain.chain.get ⟨1, by decide⟩ with owner_name := "bob" } ≠
      (App3.demoChain.chain.get ⟨1, by decide⟩).hash := by decide
  have h3 : "deadbeef" ≠ (App3.demoChain.chain.get ⟨0, by decide⟩).hash := by decide
  refine ⟨h1, h2, h3, ?_, ?_⟩
  · exact c2_tamper_and_linkage_detection.1 App3.demoChain 1 "bob"
      (by decide) (by decide) h1 h2
  · exact c2_tamper_and_linkage_detection.2 App3.demoChain 1 "deadbeef"
      (by decide) (by decide) h3

/-! ## Claim C9 -/

/-- Binding an `Except.error` result short-circuits. -/
theorem exbind_error {α β : Type} (e : String) (f : α → Except String β) :
    (Except.error e >>= f) = Except.error e := rfl

/-- Binding an `Except.ok` result continues with the value. -/
theorem exbind_ok {α β : Type} (a : α) (f : α → Except String β) :
    (Except.ok a >>= f) = f a := rfl

/-- A record that `loadBlock` reconstructs successfully has every required
key present (each subscript `block_data[key]` must have returned a value). -/
theorem app3_loadBlock_ok_requires (j : Json) (b : App3.Block)
    (h : App3.loadBlock j = .ok b) :
    ∀ k ∈ App3.requiredKeys, ∃ v, App3.jGet j k = .ok v := by
  unfold App3.loadBlock at h
  cases h1 : App3.jGet j "index" with
  | error e => simp only [h1, exbind_error] at h; exact absurd h (by simp)
  | ok v1 =>
  simp only [h1, exbind_ok] at h
  cases ha1 : App3.asInt v1 with
  | error e => simp only [ha1, exbind_error] at h; exact absurd h (by simp)
  | ok i1 =>
  simp only [ha1, exbind_ok] at h
  cases h2 : App3.jGet j "timestamp" with
  | error e => simp only [h2, exbind_error] at h; exact absurd h (by simp)
  | ok v2 =>
  simp only [h2, exbind_ok] at h
  cases ha2 : App3.asStr v2 with
  | error e => simp only [ha2, exbind_error] at h; exact absurd h (by simp)
  | ok s2 =>
  simp only [ha2, exbind_ok] at h
  cases h3 : App3.jGet j "art_hash" with
  | error e => simp only [h3, exbind_error] at h; exact absurd h (by simp)
  | ok v3 =>
  simp only [h3, exbind_ok] at h
  cases ha3 : App3.asStr v3 with
  | error e => simp only [ha3, exbind_error] at h; exact absurd h (by simp)
  | ok s3 =>
  simp only [ha3, exbind_ok] at h
  cases h4 : App3.jGet j "owner_name" with
  | error e => simp only [h4, exbind_error] at h; exact absurd h (by simp)
  | ok v4 =>
  simp only [h4, exbind_ok] at h
  cases ha4 : App3.asStr v4 with
  | error e => simp only [ha4, exbind_error] at h; exact absurd h (by simp)
  | ok s4 =>
  simp only [ha4, exbind_ok] at h
  cases h5 : App3.jGet j "metadata" with
  | error e => simp only [h5, exbind_error] at h; exact absurd h (by simp)
  | ok v5 =>
  simp only [h5, exbind_ok] at h
  cases h6 : App3.jGet j "previous_hash" with
  | error e => simp only [h6, exbind_error] at h; exact absurd h (by simp)
  | ok v6 =>
  simp only [h6, exbind_ok] at h
  cases ha6 : App3.asStr v6 with
  | error e => simp only [ha6, exbind_error] at h; exact absurd h (by simp)
  | ok s6 =>
  simp only [ha6, exbind_ok] at h
  cases han : App3.asInt (App3.jGetOptNum j "nonce" 0) with
  | error e => simp only [han, exbind_error] at h; exact absurd h (by simp)
  | ok n1 =>
  simp only [han, exbind_ok] at h
  cases h7 : App3.jGet j "hash" with
  | error e => simp only [h7, exbind_error] at h; exact absurd h (by simp)
  | ok v7 =>
  intro k hk
  simp only [App3.requiredKeys, List.mem_cons, List.not_mem_nil, or_false] at hk
  rcases hk with rfl | rfl | rfl | rfl | rfl | rfl | rfl
  · exact ⟨v1, h1⟩
  · exact ⟨v2, h2⟩
  · exact ⟨v3, h3⟩
  · exact ⟨v4, h4⟩
  · exact ⟨v5, h5⟩
  · exact ⟨v6, h6⟩
  · exact ⟨v7, h7⟩

/-- A successful run of the load loop means every listed record was
reconstructed successfully. -/
theorem app3_mapM_ok_all (data : List Json) : ∀ (acc blocks : List App3.Block),
    List.mapM.loop App3.loadBlock data acc = .ok blocks →
    ∀ x ∈ data, ∃ b, App3.loadBlock x = .ok b := by
  induction data with
  | nil => intro acc blocks h x hx; simp at hx
  | cons d rest ih =>
    intro acc blocks h x hx
    simp only [List.mapM.loop] at h
    cases hd : App3.loadBlock d with
    | error e => simp only [hd, exbind_error] at h; exact absurd h (by simp)
    | ok y =>
      simp only [hd, exbind_ok] at h
      rcases List.mem_cons.mp hx with rfl | hx2
      · exact ⟨y, hd⟩
      · exact ih (y :: acc) blocks h x hx2

/-- Claim C9: if any persisted record object lacks one of the required
(subscripted) fields — index, timestamp, art_hash, owner_name, metadata,
previous_hash or hash — then `load` fails for the entire chain with an
error; no partially reconstructed chain is returned. -/
theorem c9_missing_required_field_fails_load (ts : String) (data : List Json) (i : Nat)
    (hi : i < data.length) (k : String) (hk : k ∈ App3.requiredKeys)
    (hmiss : ∃ e, App3.jGet (data.get ⟨i, hi⟩) k = .error e) :
    ∃ e, App3.Blockchain.load ts (some data) = .error e := by
  cases hm : data.mapM App3.loadBlock with
  | error e =>
      refine ⟨e, ?_⟩
      simp only [App3.Blockchain.load, bind, Except.bind, hm]
  | ok blocks =>
      exfalso
      have hall := app3_mapM_ok_all data [] blocks (by simpa [List.mapM] using hm)
        (data.get ⟨i, hi⟩) (by simp [List.get_mem])
      rcases hall with ⟨b, hb⟩
      rcases app3_loadBlock_ok_requires (data.get ⟨i, hi⟩) b hb k hk with ⟨v, hv⟩
      rcases hmiss with ⟨e, he⟩
      rw [hv] at he
      exact absurd he (by simp)

/-- Witness for C9: a one-record file whose record lacks "index" makes the
whole load fail. -/
theorem c9_witness :
    (0 : Nat) < [Json.obj [("timestamp", Json.str "t")]].length ∧
    "index" ∈ App3.requiredKeys ∧
    (∃ e, App3.jGet ([Json.obj [("timestamp", Json.str "t")]].get ⟨0, by decide⟩)
      "index" = .error e) ∧
    ∃ e, App3.Blockchain.load "t0" (some [Json.obj [("timestamp", Json.str "t")]]) =
      .error e := by
  refine ⟨by decide, by decide, ⟨"KeyError: index", rfl⟩, ?_⟩
  exact c9_missing_required_field_fails_load "t0" [Json.obj [("timestamp", Json.str "t")]]
    0 (by decide) "index" (by decide) ⟨"KeyError: index", rfl⟩

/-! ## Claim C7 -/

/-- Claim C7: `verify_signature` is a total boolean function — a raised
exception anywhere in its body (base64 decoding or library verification)
is swallowed by the bare `except` — and it returns true exactly when the
base64 decode succeeds and the library verification succeeds; every
failure mode therefore yields false. -/
theorem c7_verify_signature_never_raises (vk : VerifyingKey) (d s : String) :
    App3.verify_signature vk d s = true ↔
      ∃ bytes, b64decode s = .ok bytes ∧ ecdsaVerify vk (utf8Bytes d) bytes = .ok () := by
  unfold App3.verify_signature
  cases hb : b64decode s with
  | error e => simp [hb]
  | ok bs =>
      cases hv : ecdsaVerify vk (utf8Bytes d) bs with
      | error e => simp [hb, hv]
      | ok u => cases u; simp [hb, hv]

/-- A string that is not base64 (here with 13 alphabet characters, one more
than a multiple of four) makes `verify_signature` return false for every
key and digest, via the exception path. -/
theorem verify_signature_not_base64 (vk : VerifyingKey) (d : String) :
    App3.verify_signature vk d "not-a-signature" = false := rfl
